import Mathlib

/-
A verification development for the LISON library: a shallow embedding of
the LISON decoder (liblison parse.cpp) and the Cairo renderer (render.cpp),
with theorems checking the natural-language specification against the code.

Modelling conventions:
- C++ doubles are embedded as rationals (ℚ); arithmetic is exact.
- picojson values are embedded as the inductive `JValue`; a picojson object
  (std::map) is a list of key/value pairs, looked up by first match.
- C++ exception control flow (`throw ParseFailure`) is embedded as
  `Except ParseFailure`; `std::vector::at` throwing `std::out_of_range`
  in the renderer is embedded as `Except RenderError`.
- The cairo drawing surface is embedded as a trace of `DrawCall`s; the only
  piece of surface state the code reads back (cairo_get_current_point) is
  threaded explicitly as the path cursor.
- The recursion of the shape grammar through JSON arrays is bounded by an
  explicit `fuel` parameter (running out of fuel reports the same failure
  the surrounding C++ context would, `bad_shape`); theorems quantify over
  the fuel or condition on a successful parse, so no claim depends on the
  fuel bound itself.
-/

namespace Lison

/-- Failure kinds of the decoder, from include/lison/parse.hpp. -/
inductive ParseFailure where
  | bad_json
  | bad_image
  | bad_pen
  | bad_brush
  | bad_shape
deriving DecidableEq

/-- lison::Point, from include/lison/lison.hpp. -/
structure Point where
  x : ℚ
  y : ℚ
deriving DecidableEq

/-- lison::Color. -/
structure Color where
  red : ℚ
  green : ℚ
  blue : ℚ
  alpha : ℚ
deriving DecidableEq

/-- lison::Monochrome. -/
structure Monochrome where
  color : Color
deriving DecidableEq

/-- lison::LinearGradient. -/
structure LinearGradient where
  point1 : Point
  color1 : Color
  point2 : Point
  color2 : Color
deriving DecidableEq

/-- lison::RadialGradient. -/
structure RadialGradient where
  center1 : Point
  radius1 : ℚ
  color1 : Color
  center2 : Point
  radius2 : ℚ
  color2 : Color
deriving DecidableEq

/-- lison::Pattern = std::variant of Monochrome, LinearGradient, RadialGradient. -/
inductive Pattern where
  | monochrome (m : Monochrome)
  | linear_gradient (g : LinearGradient)
  | radial_gradient (g : RadialGradient)
deriving DecidableEq

/-- lison::LineCap. -/
inductive LineCap where
  | butt
  | round
  | square
deriving DecidableEq

/-- lison::LineJoin. -/
inductive LineJoin where
  | miter
  | round
  | bevel
deriving DecidableEq

/-- lison::Pen. -/
structure Pen where
  pattern : Pattern
  width : ℚ
  cap : LineCap
  join : LineJoin
deriving DecidableEq

/-- lison::Brush. -/
structure Brush where
  pattern : Pattern
deriving DecidableEq

/-- lison::Segment = std::variant of LineSegment, QuadraticBezierSegment,
CubicBezierSegment; each variant struct is inlined as a constructor. -/
inductive Segment where
  | line (point2 : Point)
  | quadratic_bezier (point2 : Point) (point3 : Point)
  | cubic_bezier (point2 : Point) (point3 : Point) (point4 : Point)
deriving DecidableEq

/-- lison::CurveData. -/
structure CurveData where
  start : Point
  segments : List Segment
deriving DecidableEq

/-- lison::RegionData. -/
structure RegionData where
  curves : List CurveData
deriving DecidableEq

/-- lison::Curve. -/
structure Curve where
  pen : Nat
  data : CurveData
deriving DecidableEq

/-- lison::Region. -/
structure Region where
  pen : Option Nat
  brush : Option Nat
  data : RegionData
deriving DecidableEq

/-- lison::Shape = std::variant of Group, Curve, Region; the single-field
struct Group is inlined as the `group` constructor holding its content. -/
inductive Shape where
  | group (content : List Shape)
  | curve (c : Curve)
  | region (r : Region)

/-- lison::Image. -/
structure Image where
  width : ℚ
  height : ℚ
  unit_per_inch : ℚ
  pens : List Pen
  brushes : List Brush
  shapes : List Shape

/-- A picojson value tree (the JSON parser itself is an external
collaborator; this is its output type). A picojson object is a
std::map from strings to values, embedded as a key/value list. -/
inductive JValue where
  | null
  | bool (b : Bool)
  | num (q : ℚ)
  | str (s : String)
  | arr (xs : List JValue)
  | obj (fs : List (String × JValue))

/-- Result type of each decoding step: C++ `throw ParseFailure` becomes
`Except.error`. -/
abbrev ParseM (α : Type) := Except ParseFailure α

/-- obj.find(name) on a picojson object. -/
def lookupField (fs : List (String × JValue)) (k : String) : Option JValue :=
  (fs.find? (fun p => p.1 == k)).map Prod.snd

/-- obj.contains(name) on a picojson object. -/
def hasField (fs : List (String × JValue)) (k : String) : Bool :=
  fs.any (fun p => p.1 == k)

/-- lison::parse_array: require a JSON array, decode every element in
order, propagating the first element failure. -/
def parse_array {T : Type} (val : JValue) (parse : JValue → ParseM T)
    (ctx : ParseFailure) : ParseM (List T) :=
  match val with
  | .arr xs => xs.mapM parse
  | _ => .error ctx

/-- lison::parse_object: require a JSON object, require every required
member present and every present member allowed (closed schema), then run
each filler on its member when present. `init` stands for the
default-constructed C++ target `T t;`. -/
def parse_object {T : Type} (val : JValue)
    (required_members : List String)
    (allowed_members : List String)
    (ctx : ParseFailure) (init : T)
    (fillers : List (String × (T → JValue → ParseM T))) : ParseM T :=
  match val with
  | .obj fs =>
    if required_members.all (fun m => hasField fs m)
        && fs.all (fun p => allowed_members.contains p.1) then
      fillers.foldlM
        (fun t filler =>
          match lookupField fs filler.1 with
          | some v => filler.2 t v
          | none => pure t)
        init
    else
      .error ctx
  | _ => .error ctx

/-- lison::parse_sub: decode, then check a predicate on the result. -/
def parse_sub {T : Type} (val : JValue)
    (parse : JValue → ParseFailure → ParseM T)
    (pred : T → Bool) (ctx : ParseFailure) : ParseM T := do
  let res ← parse val ctx
  if pred res then pure res else .error ctx

/-- lison::parse_tuple: require a JSON array whose length equals the
number of fillers, then apply the fillers positionally. -/
def parse_tuple {T : Type} (val : JValue) (ctx : ParseFailure) (init : T)
    (fillers : List (T → JValue → ParseM T)) : ParseM T :=
  match val with
  | .arr xs =>
    if xs.length = fillers.length then
      (List.zip fillers xs).foldlM (fun t fv => fv.1 t fv.2) init
    else
      .error ctx
  | _ => .error ctx

/-- lison::parse_number. -/
def parse_number (val : JValue) (ctx : ParseFailure) : ParseM ℚ :=
  match val with
  | .num q => pure q
  | _ => .error ctx

/-- lison::parse_positive_number. -/
def parse_positive_number (val : JValue) (ctx : ParseFailure) : ParseM ℚ :=
  parse_sub val parse_number (fun num => decide (num > 0)) ctx

/-- lison::parse_non_negative_number. -/
def parse_non_negative_number (val : JValue) (ctx : ParseFailure) : ParseM ℚ :=
  parse_sub val parse_number (fun num => decide (num >= 0)) ctx

/-- lison::parse_channel: a number in [0, 1]. -/
def parse_channel (val : JValue) (ctx : ParseFailure) : ParseM ℚ :=
  parse_sub val parse_number (fun num => decide (0 <= num ∧ num <= 1)) ctx

/-- lison::parse_index: a non-negative number equal to its floor, then
converted to std::size_t at the return. -/
def parse_index (val : JValue) (ctx : ParseFailure) : ParseM Nat := do
  let num ← parse_sub val parse_number
    (fun num => decide (num >= 0 ∧ (⌊num⌋ : ℚ) = num)) ctx
  pure (⌊num⌋).toNat

/-- lison::parse_point: a tuple of two numbers. -/
def parse_point (val : JValue) (ctx : ParseFailure) : ParseM Point :=
  parse_tuple val ctx (Point.mk 0 0)
    [fun p v => (parse_number v ctx).map (fun q => { p with x := q }),
     fun p v => (parse_number v ctx).map (fun q => { p with y := q })]

/-- lison::parse_color: an array of exactly 3 channels (alpha 1) or
exactly 4 channels. -/
def parse_color (val : JValue) (ctx : ParseFailure) : ParseM Color :=
  match val with
  | .arr [a, b, c] => do
    let red ← parse_channel a ctx
    let green ← parse_channel b ctx
    let blue ← parse_channel c ctx
    pure (Color.mk red green blue 1)
  | .arr [a, b, c, d] => do
    let red ← parse_channel a ctx
    let green ← parse_channel b ctx
    let blue ← parse_channel c ctx
    let alpha ← parse_channel d ctx
    pure (Color.mk red green blue alpha)
  | .arr _ => .error ctx
  | _ => .error ctx

/-- lison::parse_monochrome: required members. -/
def monochrome_required_members : List String := ["type", "color"]

/-- lison::parse_monochrome: allowed members. -/
def monochrome_allowed_members : List String := ["type", "color"]

/-- lison::parse_monochrome. -/
def parse_monochrome (val : JValue) (ctx : ParseFailure) : ParseM Monochrome :=
  parse_object val monochrome_required_members monochrome_allowed_members ctx
    (Monochrome.mk (Color.mk 0 0 0 0))
    [("color", fun pat v => (parse_color v ctx).map (fun c => { pat with color := c }))]

/-- lison::parse_linear_gradient: required members. -/
def linear_gradient_required_members : List String :=
  ["type", "point-1", "color-1", "point-2", "color-2"]

/-- lison::parse_linear_gradient: allowed members. -/
def linear_gradient_allowed_members : List String :=
  ["type", "point-1", "color-1", "point-2", "color-2"]

/-- lison::parse_linear_gradient. -/
def parse_linear_gradient (val : JValue) (ctx : ParseFailure) : ParseM LinearGradient :=
  parse_object val linear_gradient_required_members linear_gradient_allowed_members ctx
    (LinearGradient.mk (Point.mk 0 0) (Color.mk 0 0 0 0) (Point.mk 0 0) (Color.mk 0 0 0 0))
    [("point-1", fun pat v => (parse_point v ctx).map (fun p => { pat with point1 := p })),
     ("color-1", fun pat v => (parse_color v ctx).map (fun c => { pat with color1 := c })),
     ("point-2", fun pat v => (parse_point v ctx).map (fun p => { pat with point2 := p })),
     ("color-2", fun pat v => (parse_color v ctx).map (fun c => { pat with color2 := c }))]

/-- lison::parse_radial_gradient: required members. -/
def radial_gradient_required_members : List String :=
  ["type", "center-1", "radius-1", "color-1", "center-2", "radius-2", "color-2"]

/-- lison::parse_radial_gradient: allowed members. -/
def radial_gradient_allowed_members : List String :=
  ["type", "center-1", "radius-1", "color-1", "center-2", "radius-2", "color-2"]

/-- lison::parse_radial_gradient. -/
def parse_radial_gradient (val : JValue) (ctx : ParseFailure) : ParseM RadialGradient :=
  parse_object val radial_gradient_required_members radial_gradient_allowed_members ctx
    (RadialGradient.mk (Point.mk 0 0) 0 (Color.mk 0 0 0 0) (Point.mk 0 0) 0 (Color.mk 0 0 0 0))
    [("center-1", fun pat v => (parse_point v ctx).map (fun p => { pat with center1 := p })),
     ("radius-1", fun pat v => (parse_non_negative_number v ctx).map (fun r => { pat with radius1 := r })),
     ("color-1", fun pat v => (parse_color v ctx).map (fun c => { pat with color1 := c })),
     ("center-2", fun pat v => (parse_point v ctx).map (fun p => { pat with center2 := p })),
     ("radius-2", fun pat v => (parse_non_negative_number v ctx).map (fun r => { pat with radius2 := r })),
     ("color-2", fun pat v => (parse_color v ctx).map (fun c => { pat with color2 := c }))]

/-- lison::parse_pattern: dispatch on the "type" string member. -/
def parse_pattern (val : JValue) (ctx : ParseFailure) : ParseM Pattern :=
  match val with
  | .obj fs =>
    match lookupField fs "type" with
    | some (.str type) =>
      if type = "monochrome" then
        (parse_monochrome val ctx).map Pattern.monochrome
      else if type = "linear-gradient" then
        (parse_linear_gradient val ctx).map Pattern.linear_gradient
      else if type = "radial-gradient" then
        (parse_radial_gradient val ctx).map Pattern.radial_gradient
      else
        .error ctx
    | _ => .error ctx
  | _ => .error ctx

/-- lison::parse_line_cap: a string from a fixed vocabulary. -/
def parse_line_cap (val : JValue) : ParseM LineCap :=
  match val with
  | .str s =>
    if s = "butt" then pure LineCap.butt
    else if s = "round" then pure LineCap.round
    else if s = "square" then pure LineCap.square
    else .error .bad_pen
  | _ => .error .bad_pen

/-- lison::parse_line_join: a string from a fixed vocabulary. -/
def parse_line_join (val : JValue) : ParseM LineJoin :=
  match val with
  | .str s =>
    if s = "miter" then pure LineJoin.miter
    else if s = "round" then pure LineJoin.round
    else if s = "bevel" then pure LineJoin.bevel
    else .error .bad_pen
  | _ => .error .bad_pen

/-- lison::parse_pen: required members. -/
def pen_required_members : List String := ["pattern", "width", "cap", "join"]

/-- lison::parse_pen: allowed members. -/
def pen_allowed_members : List String := ["pattern", "width", "cap", "join"]

/-- lison::parse_pen. -/
def parse_pen (val : JValue) : ParseM Pen :=
  parse_object val pen_required_members pen_allowed_members ParseFailure.bad_pen
    (Pen.mk (Pattern.monochrome (Monochrome.mk (Color.mk 0 0 0 0))) 0 LineCap.butt LineJoin.miter)
    [("pattern", fun pen v => (parse_pattern v ParseFailure.bad_pen).map (fun p => { pen with pattern := p })),
     ("width", fun pen v => (parse_positive_number v ParseFailure.bad_pen).map (fun w => { pen with width := w })),
     ("cap", fun pen v => (parse_line_cap v).map (fun c => { pen with cap := c })),
     ("join", fun pen v => (parse_line_join v).map (fun j => { pen with join := j }))]

/-- lison::parse_brush: required members. -/
def brush_required_members : List String := ["pattern"]

/-- lison::parse_brush: allowed members. -/
def brush_allowed_members : List String := ["pattern"]

/-- lison::parse_brush. -/
def parse_brush (val : JValue) : ParseM Brush :=
  parse_object val brush_required_members brush_allowed_members ParseFailure.bad_brush
    (Brush.mk (Pattern.monochrome (Monochrome.mk (Color.mk 0 0 0 0))))
    [("pattern", fun brush v => (parse_pattern v ParseFailure.bad_brush).map (fun p => { brush with pattern := p }))]

/-- lison::parse_line_segment: a 2-tuple whose first slot is the tag and
carries no data. -/
def parse_line_segment (val : JValue) : ParseM Segment :=
  parse_tuple val ParseFailure.bad_shape (Segment.line (Point.mk 0 0))
    [fun seg _ => pure seg,
     fun _ v => (parse_point v ParseFailure.bad_shape).map Segment.line]

/-- lison::parse_quadratic_bezier_segment: a 3-tuple (tag, point2, point3). -/
def parse_quadratic_bezier_segment (val : JValue) : ParseM Segment :=
  parse_tuple val ParseFailure.bad_shape (Segment.quadratic_bezier (Point.mk 0 0) (Point.mk 0 0))
    [fun seg _ => pure seg,
     fun seg v =>
       match seg with
       | .quadratic_bezier _ p3 => (parse_point v ParseFailure.bad_shape).map (fun p => Segment.quadratic_bezier p p3)
       | s => pure s,
     fun seg v =>
       match seg with
       | .quadratic_bezier p2 _ => (parse_point v ParseFailure.bad_shape).map (fun p => Segment.quadratic_bezier p2 p)
       | s => pure s]

/-- lison::parse_cubic_bezier_segment: a 4-tuple (tag, point2, point3, point4). -/
def parse_cubic_bezier_segment (val : JValue) : ParseM Segment :=
  parse_tuple val ParseFailure.bad_shape
    (Segment.cubic_bezier (Point.mk 0 0) (Point.mk 0 0) (Point.mk 0 0))
    [fun seg _ => pure seg,
     fun seg v =>
       match seg with
       | .cubic_bezier _ p3 p4 => (parse_point v ParseFailure.bad_shape).map (fun p => Segment.cubic_bezier p p3 p4)
       | s => pure s,
     fun seg v =>
       match seg with
       | .cubic_bezier p2 _ p4 => (parse_point v ParseFailure.bad_shape).map (fun p => Segment.cubic_bezier p2 p p4)
       | s => pure s,
     fun seg v =>
       match seg with
       | .cubic_bezier p2 p3 _ => (parse_point v ParseFailure.bad_shape).map (fun p => Segment.cubic_bezier p2 p3 p)
       | s => pure s]

/-- lison::parse_segment: dispatch on the first tuple element string. -/
def parse_segment (val : JValue) : ParseM Segment :=
  match val with
  | .arr xs =>
    match xs with
    | .str type :: _ =>
      if type = "L" then parse_line_segment val
      else if type = "Q" then parse_quadratic_bezier_segment val
      else if type = "C" then parse_cubic_bezier_segment val
      else .error .bad_shape
    | _ => .error .bad_shape
  | _ => .error .bad_shape

/-- lison::parse_curve_data: a non-empty array; element 0 is the start
point, the remaining elements are segments. -/
def parse_curve_data (val : JValue) : ParseM CurveData :=
  match val with
  | .arr xs =>
    match xs with
    | [] => .error .bad_shape
    | x0 :: rest => do
      let start ← parse_point x0 ParseFailure.bad_shape
      let segs ← rest.mapM parse_segment
      pure (CurveData.mk start segs)
  | _ => .error .bad_shape

/-- lison::parse_region_data: an array of curve data (note: the code
performs no non-emptiness check here, unlike parse_curve_data). -/
def parse_region_data (val : JValue) : ParseM RegionData :=
  (parse_array val parse_curve_data ParseFailure.bad_shape).map RegionData.mk

/-- lison::parse_curve: required members. -/
def curve_required_members : List String := ["type", "pen", "data"]

/-- lison::parse_curve: allowed members. -/
def curve_allowed_members : List String := ["type", "pen", "data"]

/-- lison::parse_curve. -/
def parse_curve (val : JValue) : ParseM Curve :=
  parse_object val curve_required_members curve_allowed_members ParseFailure.bad_shape
    (Curve.mk 0 (CurveData.mk (Point.mk 0 0) []))
    [("pen", fun c v => (parse_index v ParseFailure.bad_shape).map (fun i => { c with pen := i })),
     ("data", fun c v => (parse_curve_data v).map (fun d => { c with data := d }))]

/-- lison::parse_region: required members. -/
def region_required_members : List String := ["type", "data"]

/-- lison::parse_region: allowed members. -/
def region_allowed_members : List String := ["type", "pen", "brush", "data"]

/-- lison::parse_region; pen and brush are optional and default to
std::nullopt. -/
def parse_region (val : JValue) : ParseM Region :=
  parse_object val region_required_members region_allowed_members ParseFailure.bad_shape
    (Region.mk none none (RegionData.mk []))
    [("pen", fun r v => (parse_index v ParseFailure.bad_shape).map (fun i => { r with pen := some i })),
     ("brush", fun r v => (parse_index v ParseFailure.bad_shape).map (fun i => { r with brush := some i })),
     ("data", fun r v => (parse_region_data v).map (fun d => { r with data := d }))]

/-- lison::parse_group: required members. -/
def group_required_members : List String := ["type", "content"]

/-- lison::parse_group: allowed members (the optional edit-annot member
is accepted but has no filler, hence ignored). -/
def group_allowed_members : List String := ["type", "content", "edit-annot"]

/-- lison::parse_group, parameterized by the shape parser for the content
elements (the C++ function closes over the mutually recursive
parse_shape; the parameter makes the recursion explicit). -/
def parse_group_via (shape_of : JValue → ParseM Shape) (val : JValue) :
    ParseM (List Shape) :=
  parse_object val group_required_members group_allowed_members ParseFailure.bad_shape
    ([] : List Shape)
    [("content", fun _ v => parse_array v shape_of ParseFailure.bad_shape)]

/-- lison::parse_shape: dispatch on the "type" string member. The
recursion through group content is bounded by `fuel`; exhausted fuel
reports bad_shape like every other violation in the shape grammar. -/
def parse_shape : Nat → JValue → ParseM Shape
  | 0, _ => .error .bad_shape
  | fuel + 1, val =>
    match val with
    | .obj fs =>
      match lookupField fs "type" with
      | some (.str type) =>
        if type = "group" then
          (parse_group_via (fun x => parse_shape fuel x) val).map Shape.group
        else if type = "curve" then
          (parse_curve val).map Shape.curve
        else if type = "region" then
          (parse_region val).map Shape.region
        else
          .error .bad_shape
      | _ => .error .bad_shape
    | _ => .error .bad_shape

/-- lison::parse_group at a given recursion budget. -/
def parse_group (fuel : Nat) (val : JValue) : ParseM (List Shape) :=
  parse_group_via (fun x => parse_shape fuel x) val

/-- lison::parse_image: required members. -/
def image_required_members : List String :=
  ["width", "height", "unit-per-inch", "pens", "brushes", "shapes"]

/-- lison::parse_image: allowed members (the optional editor member is
accepted but has no filler, hence ignored). -/
def image_allowed_members : List String :=
  ["width", "height", "unit-per-inch", "editor", "pens", "brushes", "shapes"]

mutual

/-- lison::detail::ShapeIndexChecker::operator() on a single shape:
every pen/brush index must be strictly below the length of the
corresponding image array; groups are checked recursively. -/
def shape_index_check (im : Image) : Shape → Bool
  | .group content => shape_index_check_list im content
  | .curve c => decide (c.pen < im.pens.length)
  | .region r =>
    (match r.pen with
     | none => true
     | some p => decide (p < im.pens.length))
    && (match r.brush with
        | none => true
        | some b => decide (b < im.brushes.length))

/-- std::ranges::all_of over a list of shapes, visiting the checker. -/
def shape_index_check_list (im : Image) : List Shape → Bool
  | [] => true
  | s :: ss => shape_index_check im s && shape_index_check_list im ss

end

/-- The structural part of lison::parse_image: the parse_object call that
builds the Image, before the post-build index check. -/
def parse_image_object (fuel : Nat) (val : JValue) : ParseM Image :=
  parse_object val image_required_members image_allowed_members ParseFailure.bad_image
    (Image.mk 0 0 0 [] [] [])
    [("width", fun im v => (parse_positive_number v ParseFailure.bad_image).map (fun q => { im with width := q })),
     ("height", fun im v => (parse_positive_number v ParseFailure.bad_image).map (fun q => { im with height := q })),
     ("unit-per-inch", fun im v => (parse_positive_number v ParseFailure.bad_image).map (fun q => { im with unit_per_inch := q })),
     ("pens", fun im v => (parse_array v parse_pen ParseFailure.bad_image).map (fun ps => { im with pens := ps })),
     ("brushes", fun im v => (parse_array v parse_brush ParseFailure.bad_image).map (fun bs => { im with brushes := bs })),
     ("shapes", fun im v => (parse_array v (fun x => parse_shape fuel x) ParseFailure.bad_image).map (fun ss => { im with shapes := ss }))]

/-- lison::parse_image: build the Image structurally, then run the
post-build whole-tree index check; an out-of-bounds index anywhere fails
with bad_shape. -/
def parse_image (fuel : Nat) (val : JValue) : ParseM Image := do
  let im ← parse_image_object fuel val
  if shape_index_check_list im im.shapes then pure im else .error .bad_shape

/-- lison::parse: the picojson tokenizer is an external collaborator,
modelled by the `Option JValue` input (`none` is a picojson error, giving
bad_json); a thrown ParseFailure is returned as the failure alternative. -/
def parse (fuel : Nat) (json : Option JValue) : ParseM Image :=
  match json with
  | none => .error .bad_json
  | some val => parse_image fuel val

/-- One call to the external cairo drawing surface, as issued by
render.cpp. Gradient construction (create, two color stops, set as
source, destroy) is collapsed into a single source-setting call holding
all its data. -/
inductive DrawCall where
  | set_operator_over
  | set_fill_rule_even_odd
  | new_path
  | move_to (x y : ℚ)
  | line_to (x y : ℚ)
  | curve_to (x2 y2 x3 y3 x4 y4 : ℚ)
  | close_path
  | new_sub_path
  | set_source_rgba (r g b a : ℚ)
  | set_source_linear_gradient (x1 y1 x2 y2 : ℚ) (c1 c2 : Color)
  | set_source_radial_gradient (x1 y1 r1 x2 y2 r2 : ℚ) (c1 c2 : Color)
  | set_line_width (w : ℚ)
  | set_line_cap (cap : LineCap)
  | set_line_join (join : LineJoin)
  | fill_preserve
  | stroke
deriving DecidableEq

/-- The renderer's only failure mode: std::vector::at throwing
std::out_of_range. -/
inductive RenderError where
  | out_of_range
deriving DecidableEq

/-- lison::detail::CoordTransformer: a single effective scale factor. -/
structure CoordTransformer where
  scale : ℚ

/-- The CoordTransformer constructor: scale = ppi / im.unit_per_inch * s. -/
def CoordTransformer.make (im : Image) (ppi s : ℚ) : CoordTransformer :=
  CoordTransformer.mk (ppi / im.unit_per_inch * s)

/-- CoordTransformer::transform on a scalar. -/
def CoordTransformer.transform (t : CoordTransformer) (x : ℚ) : ℚ :=
  x * t.scale

/-- CoordTransformer::transform on a point: both coordinates scaled. -/
def CoordTransformer.transformPoint (t : CoordTransformer) (p : Point) : Point :=
  Point.mk (t.transform p.x) (t.transform p.y)

/-- lison::detail::PatternSetter: the calls that set a pattern as the
current paint source. -/
def set_pattern (t : CoordTransformer) : Pattern → List DrawCall
  | .monochrome m =>
    [.set_source_rgba m.color.red m.color.green m.color.blue m.color.alpha]
  | .linear_gradient g =>
    let p1 := t.transformPoint g.point1
    let p2 := t.transformPoint g.point2
    [.set_source_linear_gradient p1.x p1.y p2.x p2.y g.color1 g.color2]
  | .radial_gradient g =>
    let c1 := t.transformPoint g.center1
    let c2 := t.transformPoint g.center2
    [.set_source_radial_gradient c1.x c1.y (t.transform g.radius1)
      c2.x c2.y (t.transform g.radius2) g.color1 g.color2]

/-- ShapeRenderer::set_pen: paint source, then transformed stroke width,
then cap and join. -/
def set_pen (t : CoordTransformer) (pen : Pen) : List DrawCall :=
  set_pattern t pen.pattern
    ++ [.set_line_width (t.transform pen.width),
        .set_line_cap pen.cap,
        .set_line_join pen.join]

/-- ShapeRenderer::set_brush: just the paint source. -/
def set_brush (t : CoordTransformer) (brush : Brush) : List DrawCall :=
  set_pattern t brush.pattern

/-- lison::detail::SegmentPutter: the calls for one segment, given the
current path cursor (cairo_get_current_point), together with the cursor
after the segment. A quadratic segment is degree-elevated to a cubic. -/
def put_segment (t : CoordTransformer) (cursor : Point) :
    Segment → List DrawCall × Point
  | .line sp2 =>
    let p2 := t.transformPoint sp2
    ([.line_to p2.x p2.y], p2)
  | .quadratic_bezier sp2 sp3 =>
    let qp1 := cursor
    let qp2 := t.transformPoint sp2
    let qp3 := t.transformPoint sp3
    let cp2 := Point.mk (qp1.x + 2 * (qp2.x - qp1.x) / 3)
                        (qp1.y + 2 * (qp2.y - qp1.y) / 3)
    let cp3 := Point.mk (qp3.x + 2 * (qp2.x - qp3.x) / 3)
                        (qp3.y + 2 * (qp2.y - qp3.y) / 3)
    let cp4 := qp3
    ([.curve_to cp2.x cp2.y cp3.x cp3.y cp4.x cp4.y], cp4)
  | .cubic_bezier sp2 sp3 sp4 =>
    let p2 := t.transformPoint sp2
    let p3 := t.transformPoint sp3
    let p4 := t.transformPoint sp4
    ([.curve_to p2.x p2.y p3.x p3.y p4.x p4.y], p4)

/-- The segment loop of ShapeRenderer::put_path, threading the cursor. -/
def put_segments (t : CoordTransformer) (cursor : Point) :
    List Segment → List DrawCall
  | [] => []
  | seg :: rest =>
    let cp := put_segment t cursor seg
    cp.1 ++ put_segments t cp.2 rest

/-- ShapeRenderer::put_path: move to the transformed start, put every
segment, and close the sub-path when requested. -/
def put_path (t : CoordTransformer) (data : CurveData) (closed : Bool) :
    List DrawCall :=
  let start := t.transformPoint data.start
  DrawCall.move_to start.x start.y
    :: (put_segments t start data.segments
        ++ if closed then [DrawCall.close_path] else [])

/-- ShapeRenderer::operator()(const Curve &): open path, pens.at(pen),
stroke. -/
def render_curve (im : Image) (t : CoordTransformer) (c : Curve) :
    Except RenderError (List DrawCall) :=
  match im.pens[c.pen]? with
  | some pen => pure (put_path t c.data false ++ set_pen t pen ++ [DrawCall.stroke])
  | none => .error .out_of_range

/-- ShapeRenderer::operator()(const Region &): closed path for
curves.at(0), then a new sub-path plus closed path for each further
curve, then the optional fill (preserving the path), then either the
optional stroke or a path-discarding cairo_new_path. -/
def render_region (im : Image) (t : CoordTransformer) (r : Region) :
    Except RenderError (List DrawCall) := do
  let c0 ← match r.data.curves with
    | [] => Except.error RenderError.out_of_range
    | c :: _ => pure c
  let path_calls := put_path t c0 true
    ++ (r.data.curves.drop 1).flatMap
        (fun c => DrawCall.new_sub_path :: put_path t c true)
  let brush_calls ← match r.brush with
    | some b =>
      match im.brushes[b]? with
      | some brush => pure (set_brush t brush ++ [DrawCall.fill_preserve])
      | none => Except.error RenderError.out_of_range
    | none => pure []
  let pen_calls ← match r.pen with
    | some p =>
      match im.pens[p]? with
      | some pen => pure (set_pen t pen ++ [DrawCall.stroke])
      | none => Except.error RenderError.out_of_range
    | none => pure [DrawCall.new_path]
  pure (path_calls ++ brush_calls ++ pen_calls)

mutual

/-- lison::render_shape: exhaustive visit of the shape variant. -/
def render_shape (im : Image) (t : CoordTransformer) :
    Shape → Except RenderError (List DrawCall)
  | .group content => render_shape_list im t content
  | .curve c => render_curve im t c
  | .region r => render_region im t r

/-- ShapeRenderer::operator()(const Group &): render the content shapes
in order. -/
def render_shape_list (im : Image) (t : CoordTransformer) :
    List Shape → Except RenderError (List DrawCall)
  | [] => pure []
  | s :: ss => do
    let a ← render_shape im t s
    let b ← render_shape_list im t ss
    pure (a ++ b)

end

/-- lison::render: set the compositing operator to source-over, set the
fill rule to even-odd, clear any current path, then walk the shapes. -/
def render (im : Image) (ppi s : ℚ) : Except RenderError (List DrawCall) := do
  let t := CoordTransformer.make im ppi s
  let body ← render_shape_list im t im.shapes
  pure ([DrawCall.set_operator_over, DrawCall.set_fill_rule_even_odd,
         DrawCall.new_path] ++ body)

mutual

/-- Spec-side definition (for comparing the code's post-build checker
against the specification's words): every pen index referenced anywhere
in a shape, at any depth of group nesting. -/
def spec_pen_refs : Shape → List Nat
  | .group content => spec_pen_refs_list content
  | .curve c => [c.pen]
  | .region r => r.pen.toList

/-- Spec-side: pen indices referenced anywhere in a list of shapes. -/
def spec_pen_refs_list : List Shape → List Nat
  | [] => []
  | s :: ss => spec_pen_refs s ++ spec_pen_refs_list ss

end

mutual

/-- Spec-side: every brush index referenced anywhere in a shape. -/
def spec_brush_refs : Shape → List Nat
  | .group content => spec_brush_refs_list content
  | .curve _ => []
  | .region r => r.brush.toList

/-- Spec-side: brush indices referenced anywhere in a list of shapes. -/
def spec_brush_refs_list : List Shape → List Nat
  | [] => []
  | s :: ss => spec_brush_refs s ++ spec_brush_refs_list ss

end

/-- Spec-side statement of the whole-document invariant: every pen/brush
index referenced anywhere in the shape tree is strictly less than the
length of the corresponding top-level array. -/
def spec_indices_in_bounds (im : Image) : Prop :=
  (∀ i ∈ spec_pen_refs_list im.shapes, i < im.pens.length)
    ∧ (∀ i ∈ spec_brush_refs_list im.shapes, i < im.brushes.length)

instance (im : Image) : Decidable (spec_indices_in_bounds im) := by
  unfold spec_indices_in_bounds
  infer_instance

/-- A call is one of the path-construction calls issued by put_path. -/
def is_path_construction_call : DrawCall → Bool
  | .move_to _ _ => true
  | .line_to _ _ => true
  | .curve_to _ _ _ _ _ _ => true
  | .close_path => true
  | .new_sub_path => true
  | _ => false

/-- A JSON value that is a number in the channel domain [0, 1]. -/
def is_channel_value : JValue → Bool
  | .num q => decide (0 <= q ∧ q <= 1)
  | _ => false

/-- The numeric payload of a JSON value (0 when it is not a number). -/
def channel_val : JValue → ℚ
  | .num q => q
  | _ => 0

/-- A picojson object holds a member whose name is outside the allowed
set of the schema. -/
def has_disallowed_member (fs : List (String × JValue)) (allowed : List String) : Prop :=
  ∃ p ∈ fs, allowed.contains p.1 = false

/-- A picojson object lacks one of the required members of the schema. -/
def misses_required_member (fs : List (String × JValue)) (required : List String) : Prop :=
  ∃ m ∈ required, hasField fs m = false

/-- A LISON document whose single region carries the empty array as its
`data`; the grammar demands RegionData length at least 1. -/
def empty_region_doc : JValue := .obj [
  ("width", .num 1), ("height", .num 1), ("unit-per-inch", .num 1),
  ("pens", .arr []), ("brushes", .arr []),
  ("shapes", .arr [.obj [("type", .str "region"), ("data", .arr [])]])]

/-- The model the decoder builds for `empty_region_doc`: a region with
zero curves. -/
def empty_region_image : Image :=
  Image.mk 1 1 1 [] [] [Shape.region (Region.mk none none (RegionData.mk []))]

/-- A structurally valid LISON document whose single curve references
pen index 0 while the pens array is empty. -/
def bad_index_doc : JValue := .obj [
  ("width", .num 1), ("height", .num 1), ("unit-per-inch", .num 1),
  ("pens", .arr []), ("brushes", .arr []),
  ("shapes", .arr [.obj [("type", .str "curve"), ("pen", .num 0),
    ("data", .arr [.arr [.num 0, .num 0]])]])]

/-- The image built by the structural phase for `bad_index_doc`. -/
def bad_index_image : Image :=
  Image.mk 1 1 1 [] []
    [Shape.curve (Curve.mk 0 (CurveData.mk (Point.mk 0 0) []))]

/-- A minimal valid image: empty pens, brushes and shapes. -/
def trivial_image : Image := Image.mk 1 1 1 [] [] []

theorem except_bind_eq_ok {ε α β : Type} {e : Except ε α} {f : α → Except ε β} {b : β} :
    e >>= f = .ok b ↔ ∃ a, e = .ok a ∧ f a = .ok b := by
  cases e <;> simp [Bind.bind, Except.bind]

theorem except_ok_bind {ε α β : Type} (a : α) (f : α → Except ε β) :
    (Except.ok a : Except ε α) >>= f = f a := rfl

theorem except_error_bind {ε α β : Type} (e : ε) (f : α → Except ε β) :
    (Except.error e : Except ε α) >>= f = .error e := rfl

/-- C1: the spec promises that render cannot fail on any Image returned
by parse, all lookups being in bounds. The code breaks this: the decoder
accepts a region whose `data` is the empty array (parse_region_data
performs no non-emptiness check), and render's `data.curves.at(0)` is
then out of bounds. The decoder is the slip — the grammar requires
RegionData length at least 1 and the renderer relies on it. -/
theorem c1_render_fails_on_decoded_empty_region :
    parse 3 (some empty_region_doc) = .ok empty_region_image
      ∧ render empty_region_image 72 1 = .error RenderError.out_of_range :=
  ⟨rfl, rfl⟩

/-- C2: the spec says the decoder rejects every Region whose `data`
decodes to an empty sequence of curves. The code does not: parse_region_data
is a bare parse_array with no size check, so a region whose `data` is the
empty JSON array decodes successfully into a RegionData with zero curves. -/
theorem c2_parse_accepts_empty_region_data :
    parse_region_data (JValue.arr []) = .ok (RegionData.mk [])
      ∧ parse 3 (some empty_region_doc) = .ok empty_region_image
      ∧ empty_region_image.shapes
          = [Shape.region (Region.mk none none (RegionData.mk []))] :=
  ⟨rfl, rfl, rfl⟩

/-- C6: a Quadratic segment is degree-elevated before drawing: with path
cursor P0 and transformed control/end points Q1, Q3, the emitted
cubic-curve-to call carries C2 = P0 + (2/3)(Q1 - P0),
C3 = Q3 + (2/3)(Q1 - Q3) and ends at Q3; in particular P0=(0,0),
Q1=(3,0), Q3=(6,0) gives (2,0), (4,0), (6,0). -/
theorem c6_quadratic_degree_elevation :
    (∀ (t : CoordTransformer) (cursor sp2 sp3 : Point),
      put_segment t cursor (Segment.quadratic_bezier sp2 sp3) =
        ([DrawCall.curve_to
            (cursor.x + 2 / 3 * ((t.transformPoint sp2).x - cursor.x))
            (cursor.y + 2 / 3 * ((t.transformPoint sp2).y - cursor.y))
            ((t.transformPoint sp3).x
              + 2 / 3 * ((t.transformPoint sp2).x - (t.transformPoint sp3).x))
            ((t.transformPoint sp3).y
              + 2 / 3 * ((t.transformPoint sp2).y - (t.transformPoint sp3).y))
            (t.transformPoint sp3).x
            (t.transformPoint sp3).y],
          t.transformPoint sp3))
    ∧ put_segment (CoordTransformer.mk 1) (Point.mk 0 0)
        (Segment.quadratic_bezier (Point.mk 3 0) (Point.mk 6 0))
        = ([DrawCall.curve_to 2 0 4 0 6 0], Point.mk 6 0) := by
  constructor
  · intro t cursor sp2 sp3
    simp only [put_segment, Prod.mk.injEq, List.cons.injEq,
      DrawCall.curve_to.injEq, and_true, true_and]
    refine ⟨?_, ?_, ?_, ?_⟩ <;> ring
  · simp only [put_segment, CoordTransformer.transformPoint,
      CoordTransformer.transform, Prod.mk.injEq, List.cons.injEq,
      DrawCall.curve_to.injEq, Point.mk.injEq, and_true, true_and]
    norm_num

/-- C7: the coordinate transformer's single effective scale is
resolution / unit_per_inch * magnification; it multiplies both point
coordinates and every scalar length (pen width, gradient radii) by
exactly that factor; with resolution 144, unit_per_inch 72 and
magnification 2 the scale is 4 and (1,1) maps to (4,4). -/
theorem c7_coordinate_transform :
    (∀ (im : Image) (ppi s : ℚ),
      (CoordTransformer.make im ppi s).scale = ppi / im.unit_per_inch * s)
    ∧ (∀ (t : CoordTransformer) (x : ℚ), t.transform x = x * t.scale)
    ∧ (∀ (t : CoordTransformer) (p : Point),
        t.transformPoint p = Point.mk (p.x * t.scale) (p.y * t.scale))
    ∧ (∀ (t : CoordTransformer) (pen : Pen),
        set_pen t pen = set_pattern t pen.pattern
          ++ [DrawCall.set_line_width (pen.width * t.scale),
              DrawCall.set_line_cap pen.cap,
              DrawCall.set_line_join pen.join])
    ∧ (∀ (t : CoordTransformer) (g : RadialGradient),
        set_pattern t (Pattern.radial_gradient g) =
          [DrawCall.set_source_radial_gradient
            (g.center1.x * t.scale) (g.center1.y * t.scale) (g.radius1 * t.scale)
            (g.center2.x * t.scale) (g.center2.y * t.scale) (g.radius2 * t.scale)
            g.color1 g.color2])
    ∧ (CoordTransformer.make (Image.mk 1 1 72 [] [] []) 144 2).scale = 4
    ∧ (CoordTransformer.make (Image.mk 1 1 72 [] [] []) 144 2).transformPoint
        (Point.mk 1 1) = Point.mk 4 4 := by
  refine ⟨fun im ppi s => rfl, fun t x => rfl, fun t p => rfl,
    fun t pen => rfl, fun t g => rfl, by norm_num [CoordTransformer.make],
    by simp only [CoordTransformer.make, CoordTransformer.transformPoint,
         CoordTransformer.transform, Point.mk.injEq]
       norm_num⟩

/-- C9: parse is deterministic — it is a pure function of the input
value tree (and the fixed recursion budget); equal inputs give equal
results. -/
theorem c9_parse_deterministic (fuel : Nat) (a b : Option JValue) (h : a = b) :
    parse fuel a = parse fuel b := by
  rw [h]

theorem c9_witness : parse 1 none = parse 1 none :=
  c9_parse_deterministic 1 none none rfl

/-- C10: render begins every pass with exactly three setup calls, in
order: set compositing operator source-over, set fill rule even-odd, and
a path-discarding new-path call; everything after them is the shape
walk's output. -/
theorem c10_render_preamble (im : Image) (ppi s : ℚ) (calls : List DrawCall)
    (h : render im ppi s = .ok calls) :
    calls.take 3 = [DrawCall.set_operator_over, DrawCall.set_fill_rule_even_odd,
      DrawCall.new_path]
    ∧ render_shape_list im (CoordTransformer.make im ppi s) im.shapes
        = .ok (calls.drop 3) := by
  unfold render at h
  rcases except_bind_eq_ok.mp h with ⟨body, hbody, hpure⟩
  have hcalls : calls = [DrawCall.set_operator_over,
      DrawCall.set_fill_rule_even_odd, DrawCall.new_path] ++ body := by
    cases hpure
    rfl
  subst hcalls
  exact ⟨rfl, hbody⟩

theorem parse_channel_eq (v : JValue) (ctx : ParseFailure) :
    parse_channel v ctx =
      if is_channel_value v then .ok (channel_val v) else .error ctx := by
  cases v <;>
    simp [parse_channel, parse_sub, parse_number, is_channel_value, channel_val,
      except_error_bind, except_ok_bind, pure, Except.pure]

/-- C4: decoding a Color from an array of length 3 succeeds iff all
three values are numbers in [0,1], and then alpha is exactly 1; from an
array of length 4 iff all four values are numbers in [0,1]; any other
array length always fails. -/
theorem c4_parse_color_spec (ctx : ParseFailure) :
    (∀ a b c : JValue,
      ((∃ col, parse_color (.arr [a, b, c]) ctx = .ok col)
        ↔ (is_channel_value a ∧ is_channel_value b ∧ is_channel_value c))
      ∧ (∀ col, parse_color (.arr [a, b, c]) ctx = .ok col → col.alpha = 1))
    ∧ (∀ a b c d : JValue,
      (∃ col, parse_color (.arr [a, b, c, d]) ctx = .ok col)
        ↔ (is_channel_value a ∧ is_channel_value b ∧ is_channel_value c
            ∧ is_channel_value d))
    ∧ (∀ xs : List JValue, xs.length ≠ 3 → xs.length ≠ 4 →
        parse_color (.arr xs) ctx = .error ctx) := by
  refine ⟨fun a b c => ⟨?_, ?_⟩, fun a b c d => ?_, fun xs h3 h4 => ?_⟩
  · by_cases ha : is_channel_value a <;> by_cases hb : is_channel_value b
      <;> by_cases hc : is_channel_value c <;>
      simp [parse_color, parse_channel_eq, ha, hb, hc,
        except_ok_bind, except_error_bind, pure, Except.pure]
  · intro col h
    by_cases ha : is_channel_value a <;> by_cases hb : is_channel_value b
      <;> by_cases hc : is_channel_value c <;>
      simp [parse_color, parse_channel_eq, ha, hb, hc,
        except_ok_bind, except_error_bind, pure, Except.pure] at h
    rw [← h]
  · by_cases ha : is_channel_value a <;> by_cases hb : is_channel_value b
      <;> by_cases hc : is_channel_value c <;> by_cases hd : is_channel_value d
      <;> simp [parse_color, parse_channel_eq, ha, hb, hc, hd,
        except_ok_bind, except_error_bind, pure, Except.pure]
  · exact match xs, h3, h4 with
    | [], _, _ => rfl
    | [_], _, _ => rfl
    | [_, _], _, _ => rfl
    | [_, _, _], h3, _ => absurd rfl h3
    | [_, _, _, _], _, h4 => absurd rfl h4
    | _ :: _ :: _ :: _ :: _ :: _, _, _ => rfl

theorem c4_witness :
    parse_color (JValue.arr []) ParseFailure.bad_shape
        = .error ParseFailure.bad_shape
    ∧ (Color.mk 1 0 1 1).alpha = 1 :=
  ⟨(c4_parse_color_spec ParseFailure.bad_shape).2.2 [] (by decide) (by decide),
   ((c4_parse_color_spec ParseFailure.bad_shape).1
     (JValue.num 1) (JValue.num 0) (JValue.num 1)).2
     (Color.mk 1 0 1 1) rfl⟩

theorem parse_object_closed_schema {T : Type} (fs : List (String × JValue))
    (required allowed : List String) (ctx : ParseFailure) (init : T)
    (fillers : List (String × (T → JValue → ParseM T)))
    (h : has_disallowed_member fs allowed) :
    parse_object (.obj fs) required allowed ctx init fillers = .error ctx := by
  obtain ⟨p, hp, hfalse⟩ := h
  have h2 : fs.all (fun q => allowed.contains q.1) = false := by
    rcases Bool.eq_false_or_eq_true (fs.all (fun q => allowed.contains q.1)) with h2 | h2
    · have hc : allowed.contains p.1 = true := List.all_eq_true.mp h2 p hp
      rw [hfalse] at hc
      exact absurd hc (by decide)
    · exact h2
  simp only [parse_object]
  rw [h2, Bool.and_false]
  rfl

theorem parse_object_missing_required {T : Type} (fs : List (String × JValue))
    (required allowed : List String) (ctx : ParseFailure) (init : T)
    (fillers : List (String × (T → JValue → ParseM T)))
    (h : misses_required_member fs required) :
    parse_object (.obj fs) required allowed ctx init fillers = .error ctx := by
  obtain ⟨m, hm, hfalse⟩ := h
  have h2 : required.all (fun q => hasField fs q) = false := by
    rcases Bool.eq_false_or_eq_true (required.all (fun q => hasField fs q)) with h2 | h2
    · have hc : hasField fs m = true := List.all_eq_true.mp h2 m hm
      rw [hfalse] at hc
      exact absurd hc (by decide)
    · exact h2
  simp only [parse_object]
  rw [h2, Bool.false_and]
  rfl

/-- C5: every object type in the grammar is a closed schema — a JSON
object holding any member outside the type's allowed set fails to
decode, and so does an object lacking any required member, for Image,
Pen, Brush, Monochrome, LinearGradient, RadialGradient, Group, Curve and
Region. -/
theorem c5_closed_schemas :
    (∀ fs fuel, has_disallowed_member fs image_allowed_members →
      parse_image fuel (.obj fs) = .error .bad_image)
    ∧ (∀ fs fuel, misses_required_member fs image_required_members →
      parse_image fuel (.obj fs) = .error .bad_image)
    ∧ (∀ fs, has_disallowed_member fs pen_allowed_members →
      parse_pen (.obj fs) = .error .bad_pen)
    ∧ (∀ fs, misses_required_member fs pen_required_members →
      parse_pen (.obj fs) = .error .bad_pen)
    ∧ (∀ fs, has_disallowed_member fs brush_allowed_members →
      parse_brush (.obj fs) = .error .bad_brush)
    ∧ (∀ fs, misses_required_member fs brush_required_members →
      parse_brush (.obj fs) = .error .bad_brush)
    ∧ (∀ fs ctx, has_disallowed_member fs monochrome_allowed_members →
      parse_monochrome (.obj fs) ctx = .error ctx)
    ∧ (∀ fs ctx, misses_required_member fs monochrome_required_members →
      parse_monochrome (.obj fs) ctx = .error ctx)
    ∧ (∀ fs ctx, has_disallowed_member fs linear_gradient_allowed_members →
      parse_linear_gradient (.obj fs) ctx = .error ctx)
    ∧ (∀ fs ctx, misses_required_member fs linear_gradient_required_members →
      parse_linear_gradient (.obj fs) ctx = .error ctx)
    ∧ (∀ fs ctx, has_disallowed_member fs radial_gradient_allowed_members →
      parse_radial_gradient (.obj fs) ctx = .error ctx)
    ∧ (∀ fs ctx, misses_required_member fs radial_gradient_required_members →
      parse_radial_gradient (.obj fs) ctx = .error ctx)
    ∧ (∀ fs fuel, has_disallowed_member fs group_allowed_members →
      parse_group fuel (.obj fs) = .error .bad_shape)
    ∧ (∀ fs fuel, misses_required_member fs group_required_members →
      parse_group fuel (.obj fs) = .error .bad_shape)
    ∧ (∀ fs, has_disallowed_member fs curve_allowed_members →
      parse_curve (.obj fs) = .error .bad_shape)
    ∧ (∀ fs, misses_required_member fs curve_required_members →
      parse_curve (.obj fs) = .error .bad_shape)
    ∧ (∀ fs, has_disallowed_member fs region_allowed_members →
      parse_region (.obj fs) = .error .bad_shape)
    ∧ (∀ fs, misses_required_member fs region_required_members →
      parse_region (.obj fs) = .error .bad_shape) := by
  refine ⟨fun fs fuel h => ?_, fun fs fuel h => ?_, fun fs h => ?_, fun fs h => ?_,
    fun fs h => ?_, fun fs h => ?_, fun fs ctx h => ?_, fun fs ctx h => ?_,
    fun fs ctx h => ?_, fun fs ctx h => ?_, fun fs ctx h => ?_, fun fs ctx h => ?_,
    fun fs fuel h => ?_, fun fs fuel h => ?_, fun fs h => ?_, fun fs h => ?_,
    fun fs h => ?_, fun fs h => ?_⟩
  · unfold parse_image parse_image_object
    rw [parse_object_closed_schema _ _ _ _ _ _ h]
    rfl
  · unfold parse_image parse_image_object
    rw [parse_object_missing_required _ _ _ _ _ _ h]
    rfl
  · exact parse_object_closed_schema _ _ _ _ _ _ h
  · exact parse_object_missing_required _ _ _ _ _ _ h
  · exact parse_object_closed_schema _ _ _ _ _ _ h
  · exact parse_object_missing_required _ _ _ _ _ _ h
  · exact parse_object_closed_schema _ _ _ _ _ _ h
  · exact parse_object_missing_required _ _ _ _ _ _ h
  · exact parse_object_closed_schema _ _ _ _ _ _ h
  · exact parse_object_missing_required _ _ _ _ _ _ h
  · exact parse_object_closed_schema _ _ _ _ _ _ h
  · exact parse_object_missing_required _ _ _ _ _ _ h
  · exact parse_object_closed_schema _ _ _ _ _ _ h
  · exact parse_object_missing_required _ _ _ _ _ _ h
  · exact parse_object_closed_schema _ _ _ _ _ _ h
  · exact parse_object_missing_required _ _ _ _ _ _ h
  · exact parse_object_closed_schema _ _ _ _ _ _ h
  · exact parse_object_missing_required _ _ _ _ _ _ h

theorem c5_witness :
    parse_pen (.obj [("pattern", .null), ("width", .null), ("cap", .null),
        ("join", .null), ("rotation", .null)]) = .error .bad_pen
    ∧ parse_brush (.obj []) = .error .bad_brush :=
  ⟨c5_closed_schemas.2.2.1
    [("pattern", .null), ("width", .null), ("cap", .null),
      ("join", .null), ("rotation", .null)]
    ⟨("rotation", .null), by simp, by decide⟩,
   c5_closed_schemas.2.2.2.2.2.1 [] ⟨"pattern", by decide, by decide⟩⟩

mutual

theorem shape_index_check_iff (im : Image) (s : Shape) :
    shape_index_check im s = true ↔
      ((∀ i ∈ spec_pen_refs s, i < im.pens.length)
        ∧ (∀ i ∈ spec_brush_refs s, i < im.brushes.length)) := by
  cases s with
  | group content =>
    simp only [shape_index_check, spec_pen_refs, spec_brush_refs]
    exact shape_index_check_list_iff im content
  | curve c =>
    simp [shape_index_check, spec_pen_refs, spec_brush_refs]
  | region r =>
    obtain ⟨p, b, d⟩ := r
    cases p <;> cases b <;>
      simp [shape_index_check, spec_pen_refs, spec_brush_refs]

theorem shape_index_check_list_iff (im : Image) (ss : List Shape) :
    shape_index_check_list im ss = true ↔
      ((∀ i ∈ spec_pen_refs_list ss, i < im.pens.length)
        ∧ (∀ i ∈ spec_brush_refs_list ss, i < im.brushes.length)) := by
  cases ss with
  | nil =>
    simp [shape_index_check_list, spec_pen_refs_list, spec_brush_refs_list]
  | cons s rest =>
    rw [shape_index_check_list, Bool.and_eq_true, shape_index_check_iff im s,
      shape_index_check_list_iff im rest]
    simp only [spec_pen_refs_list, spec_brush_refs_list, List.mem_append]
    constructor
    · rintro ⟨⟨hp1, hb1⟩, hp2, hb2⟩
      exact ⟨fun i hi => hi.elim (hp1 i) (hp2 i),
        fun i hi => hi.elim (hb1 i) (hb2 i)⟩
    · rintro ⟨hp, hb⟩
      exact ⟨⟨fun i hi => hp i (Or.inl hi), fun i hi => hb i (Or.inl hi)⟩,
        fun i hi => hp i (Or.inr hi), fun i hi => hb i (Or.inr hi)⟩

end

/-- C3: for every document whose structural decode succeeds, the
post-build pass fails with bad_shape exactly when some pen/brush index
anywhere in the shape tree (at any group depth) is not strictly below
the length of the corresponding top-level array, and passes (returning
the built image) when all such indices are in bounds. -/
theorem c3_post_build_index_check (fuel : Nat) (val : JValue) (im : Image)
    (h : parse_image_object fuel val = .ok im) :
    (spec_indices_in_bounds im → parse_image fuel val = .ok im)
    ∧ (¬ spec_indices_in_bounds im → parse_image fuel val = .error .bad_shape) := by
  have hiff : shape_index_check_list im im.shapes = true ↔ spec_indices_in_bounds im := by
    rw [shape_index_check_list_iff]
    exact Iff.rfl
  constructor <;> intro hs
  · unfold parse_image
    simp only [h, except_ok_bind]
    rw [if_pos (hiff.mpr hs)]
    rfl
  · unfold parse_image
    simp only [h, except_ok_bind]
    rw [if_neg (fun hc => hs (hiff.mp hc))]

theorem c3_witness : parse_image 3 bad_index_doc = .error .bad_shape :=
  (c3_post_build_index_check 3 bad_index_doc bad_index_image rfl).2 (by decide)

theorem put_segment_calls (t : CoordTransformer) (cursor : Point) (seg : Segment) :
    ∀ call ∈ (put_segment t cursor seg).1, is_path_construction_call call = true := by
  cases seg <;> simp [put_segment, is_path_construction_call]

theorem put_segments_calls (t : CoordTransformer) (segs : List Segment) :
    ∀ cursor, ∀ call ∈ put_segments t cursor segs,
      is_path_construction_call call = true := by
  induction segs with
  | nil =>
    intro cursor call h
    simp [put_segments] at h
  | cons seg rest ih =>
    intro cursor call h
    rw [put_segments] at h
    rcases List.mem_append.mp h with h | h
    · exact put_segment_calls t cursor seg call h
    · exact ih _ call h

theorem put_path_calls (t : CoordTransformer) (data : CurveData) (closed : Bool) :
    ∀ call ∈ put_path t data closed, is_path_construction_call call = true := by
  intro call h
  rw [put_path] at h
  rcases List.mem_cons.mp h with h | h
  · subst h
    rfl
  · rcases List.mem_append.mp h with h | h
    · exact put_segments_calls t data.segments _ call h
    · cases closed with
      | false => simp at h
      | true =>
        have hcl : call = DrawCall.close_path := by simpa using h
        subst hcl
        rfl

theorem region_path_calls (t : CoordTransformer) (c0 : CurveData)
    (rest : List CurveData) :
    ∀ call ∈ put_path t c0 true
        ++ rest.flatMap (fun c => DrawCall.new_sub_path :: put_path t c true),
      is_path_construction_call call = true := by
  intro call h
  rcases List.mem_append.mp h with h | h
  · exact put_path_calls t c0 true call h
  · rcases List.mem_flatMap.mp h with ⟨c, _, h⟩
    rcases List.mem_cons.mp h with h | h
    · subst h
      rfl
    · exact put_path_calls t c true call h

/-- C8: rendering a Region emits, in order: the closed path calls for
curves[0], then for each further curve a start-new-sub-path call and its
closed path calls, then — iff a brush is present — the paint-source
calls and a fill-preserving-path call, then — iff a pen is present — the
pen-setting calls and a stroke call; with no pen, a path-discarding
new-path call is emitted instead, so a region with neither pen nor brush
issues only path-construction calls followed by the discard, and no
paint-source, fill or stroke call. -/
theorem c8_region_call_sequence (im : Image) (t : CoordTransformer) (r : Region)
    (c0 : CurveData) (rest : List CurveData) (hc : r.data.curves = c0 :: rest)
    (hb : ∀ b ∈ r.brush, b < im.brushes.length)
    (hp : ∀ p ∈ r.pen, p < im.pens.length) :
    ∃ brush_part pen_part : List DrawCall,
      render_region im t r = .ok
        ((put_path t c0 true
          ++ rest.flatMap (fun c => DrawCall.new_sub_path :: put_path t c true))
         ++ brush_part ++ pen_part)
      ∧ (r.brush = none → brush_part = [])
      ∧ (∀ b ∈ r.brush, ∃ brush, im.brushes[b]? = some brush
          ∧ brush_part = set_brush t brush ++ [DrawCall.fill_preserve])
      ∧ (r.pen = none → pen_part = [DrawCall.new_path])
      ∧ (∀ p ∈ r.pen, ∃ pen, im.pens[p]? = some pen
          ∧ pen_part = set_pen t pen ++ [DrawCall.stroke])
      ∧ (∀ call ∈ put_path t c0 true
            ++ rest.flatMap (fun c => DrawCall.new_sub_path :: put_path t c true),
          is_path_construction_call call = true) := by
  cases hB : r.brush with
  | none =>
    cases hP : r.pen with
    | none =>
      refine ⟨[], [DrawCall.new_path], ?_, fun _ => rfl, ?_, fun _ => rfl, ?_,
        region_path_calls t c0 rest⟩
      · simp only [render_region, hc, hB, hP, List.drop_succ_cons,
          List.drop_zero, except_ok_bind]
        rfl
      · intro b hb2
        simp at hb2
      · intro p hp2
        simp at hp2
    | some p =>
      have hplt : p < im.pens.length := hp p (by simp [hP])
      have hpget : im.pens[p]? = some im.pens[p] := List.getElem?_eq_getElem hplt
      refine ⟨[], set_pen t im.pens[p] ++ [DrawCall.stroke], ?_, fun _ => rfl, ?_,
        ?_, ?_, region_path_calls t c0 rest⟩
      · simp only [render_region, hc, hB, hP, List.drop_succ_cons,
          List.drop_zero, except_ok_bind, hpget]
        rfl
      · intro b hb2
        simp at hb2
      · intro hnone
        simp at hnone
      · intro q hq
        have hqp : q = p := (by simpa using hq : p = q).symm
        rw [hqp]
        exact ⟨im.pens[p], hpget, rfl⟩
  | some b =>
    have hblt : b < im.brushes.length := hb b (by simp [hB])
    have hbget : im.brushes[b]? = some im.brushes[b] := List.getElem?_eq_getElem hblt
    cases hP : r.pen with
    | none =>
      refine ⟨set_brush t im.brushes[b] ++ [DrawCall.fill_preserve],
        [DrawCall.new_path], ?_, ?_, ?_, fun _ => rfl, ?_,
        region_path_calls t c0 rest⟩
      · simp only [render_region, hc, hB, hP, List.drop_succ_cons,
          List.drop_zero, except_ok_bind, hbget]
        rfl
      · intro hnone
        simp at hnone
      · intro a ha
        have hab : a = b := (by simpa using ha : b = a).symm
        rw [hab]
        exact ⟨im.brushes[b], hbget, rfl⟩
      · intro p hp2
        simp at hp2
    | some p =>
      have hplt : p < im.pens.length := hp p (by simp [hP])
      have hpget : im.pens[p]? = some im.pens[p] := List.getElem?_eq_getElem hplt
      refine ⟨set_brush t im.brushes[b] ++ [DrawCall.fill_preserve],
        set_pen t im.pens[p] ++ [DrawCall.stroke], ?_, ?_, ?_, ?_, ?_,
        region_path_calls t c0 rest⟩
      · simp only [render_region, hc, hB, hP, List.drop_succ_cons,
          List.drop_zero, except_ok_bind, hbget, hpget]
        rfl
      · intro hnone
        simp at hnone
      · intro a ha
        have hab : a = b := (by simpa using ha : b = a).symm
        rw [hab]
        exact ⟨im.brushes[b], hbget, rfl⟩
      · intro hnone
        simp at hnone
      · intro q hq
        have hqp : q = p := (by simpa using hq : p = q).symm
        rw [hqp]
        exact ⟨im.pens[p], hpget, rfl⟩

/-- A one-curve region with neither pen nor brush, for exercising the
region call-sequence theorem at a concrete input. -/
def c8_curve0 : CurveData := CurveData.mk (Point.mk 0 0) []

/-- The region holding just `c8_curve0`. -/
def c8_region : Region := Region.mk none none (RegionData.mk [c8_curve0])

theorem c8_witness :
    ∃ brush_part pen_part : List DrawCall,
      render_region trivial_image (CoordTransformer.mk 1) c8_region = .ok
        ((put_path (CoordTransformer.mk 1) c8_curve0 true
          ++ ([] : List CurveData).flatMap
              (fun c => DrawCall.new_sub_path
                :: put_path (CoordTransformer.mk 1) c true))
         ++ brush_part ++ pen_part)
      ∧ (c8_region.brush = none → brush_part = [])
      ∧ (∀ b ∈ c8_region.brush, ∃ brush, trivial_image.brushes[b]? = some brush
          ∧ brush_part = set_brush (CoordTransformer.mk 1) brush
              ++ [DrawCall.fill_preserve])
      ∧ (c8_region.pen = none → pen_part = [DrawCall.new_path])
      ∧ (∀ p ∈ c8_region.pen, ∃ pen, trivial_image.pens[p]? = some pen
          ∧ pen_part = set_pen (CoordTransformer.mk 1) pen ++ [DrawCall.stroke])
      ∧ (∀ call ∈ put_path (CoordTransformer.mk 1) c8_curve0 true
            ++ ([] : List CurveData).flatMap
                (fun c => DrawCall.new_sub_path
                  :: put_path (CoordTransformer.mk 1) c true),
          is_path_construction_call call = true) :=
  c8_region_call_sequence trivial_image (CoordTransformer.mk 1) c8_region
    c8_curve0 [] rfl (by simp [c8_region]) (by simp [c8_region])

theorem c10_witness :
    (([DrawCall.set_operator_over, DrawCall.set_fill_rule_even_odd,
        DrawCall.new_path] : List DrawCall).take 3
      = [DrawCall.set_operator_over, DrawCall.set_fill_rule_even_odd,
          DrawCall.new_path])
    ∧ render_shape_list trivial_image (CoordTransformer.make trivial_image 72 1)
        trivial_image.shapes
      = .ok (([DrawCall.set_operator_over, DrawCall.set_fill_rule_even_odd,
          DrawCall.new_path] : List DrawCall).drop 3) :=
  c10_render_preamble trivial_image 72 1
    [DrawCall.set_operator_over, DrawCall.set_fill_rule_even_odd,
      DrawCall.new_path] rfl

end Lison
